import Mathlib

/-!
Verification of the license-scanning tool (`licenses.py`).

The development shallowly embeds the program's core logic in Lean:

* Python strings become `String`, with the Python primitives (`strip`,
  `split(" ")`, `startswith`, `endswith`, `lower`) re-implemented
  character-for-character over `String.data`, so that every definition is
  executable and kernel-reducible.
* The filesystem is an explicit read-only map `String → Option String`
  (path to file content); `os.path.isfile fp` is `(fs fp).isSome`.
* Python exceptions (`NotImplementedError`, `AttributeError`,
  `json.JSONDecodeError`) become `Except PyError`.
* The process-wide license-interning state (`LINCESE_SEQ` / `ALL_LICENSES`)
  becomes an explicit `LicState` threaded through the run.
-/

deriving instance DecidableEq for Except

/-- Python exception classes that the program can raise. -/
inductive PyError where
  | notImplementedError
  | attributeError
  | valueError
deriving DecidableEq, Repr

/-- A parsed JSON value, as produced by `json.load`.  Objects keep their
fields in document order, mirroring Python's insertion-ordered `dict`. -/
inductive Json where
  | null
  | bool (b : Bool)
  | num (n : Int)
  | str (s : String)
  | arr (xs : List Json)
  | obj (fields : List (String × Json))

/-- The whitespace set of Python's default `str.strip`. -/
def pyIsSpaceChar (c : Char) : Bool :=
  c == ' ' || c == '\t' || c == '\n' || c == '\r' || c == '\x0b' || c == '\x0c'

/-- Strip leading and trailing whitespace from a character list. -/
def stripChars (l : List Char) : List Char :=
  ((l.dropWhile pyIsSpaceChar).reverse.dropWhile pyIsSpaceChar).reverse

/-- Python `str.strip()`. -/
def pyStrip (s : String) : String := ⟨stripChars s.data⟩

/-- Split a character list at every occurrence of `sep`
(Python `str.split(sep)` keeps empty fields). -/
def splitChar (sep : Char) : List Char → List (List Char)
  | [] => [[]]
  | c :: cs =>
    if c == sep then [] :: splitChar sep cs
    else
      match splitChar sep cs with
      | [] => [[c]]
      | t :: ts => (c :: t) :: ts

/-- Python `str.split(sep)` for a one-character separator. -/
def pySplit (sep : Char) (s : String) : List String :=
  (splitChar sep s.data).map String.mk

/-- Python `str.startswith`. -/
def pyStartsWith (s pre : String) : Bool := pre.data.isPrefixOf s.data

/-- Python `str.endswith`. -/
def pyEndsWith (s suf : String) : Bool := suf.data.isSuffixOf s.data

/-- Python `str.lower` (the program only lowers ASCII license names). -/
def pyLower (s : String) : String := ⟨s.data.map Char.toLower⟩

/-- The lines of a file's content, as iterating over a Python text file
yields them (here already separated at newlines; the program strips each
line before use, so the trailing newlines are immaterial). -/
def pyLines (s : String) : List String := pySplit '\n' s

/-- `GoPkg` record from `licenses.py`: a module-lock dependency. -/
structure GoPkg where
  name : String
  version : String
  tag : String
deriving DecidableEq, Repr

/-- `NpmPkg` record from `licenses.py`: a package-manifest dependency. -/
structure NpmPkg where
  name : String
  tag : String
deriving DecidableEq, Repr

/-- `line.split(" ")` with empty fields removed:
`[x for x in line.split(" ") if x]` in `parse_pkgs_go_mod.append_pkg`. -/
def spaceTokens (line : String) : List String :=
  (pySplit ' ' line).filter (fun x => x ≠ "")

/-- The inner `append_pkg` of `parse_pkgs_go_mod` (licenses.py:16-29):
classify an in-require-block line and produce zero or one records. -/
def appendPkg (ignores : List String) (line : String) : List GoPkg :=
  let indirect := pyEndsWith line "// indirect"
  let parts := spaceTokens line
  if parts.length < 2 then []
  else
    let pkg := parts.getD 0 ""
    if !ignores.isEmpty && ignores.contains pkg then []
    else [⟨pkg, parts.getD 1 "", if indirect then "indirect" else "direct"⟩]

/-- The line loop of `parse_pkgs_go_mod` (licenses.py:31-52).  The Boolean
argument is the `in_require` flag. -/
def parseGoModLines (ignores : List String) : Bool → List String → List GoPkg
  | _, [] => []
  | inReq, l :: ls =>
    let line := pyStrip l
    if line = "" then parseGoModLines ignores inReq ls
    else if pyStartsWith line "//" then parseGoModLines ignores inReq ls
    else
      match inReq with
      | false =>
        if pyStartsWith line "require" then parseGoModLines ignores true ls
        else parseGoModLines ignores false ls
      | true =>
        if line = ")" then parseGoModLines ignores false ls
        else appendPkg ignores line ++ parseGoModLines ignores true ls

/-- `parse_pkgs_go_mod`, applied to the content of the module-lock file
(the Python function opens the path itself; `main` has already checked that
the file exists). -/
def parse_pkgs_go_mod (content : String) (ignores : List String) : List GoPkg :=
  parseGoModLines ignores false (pyLines content)

/-- The character loop of `_go_lower_case` (licenses.py:55-63). -/
def goLowerChars : List Char → List Char
  | [] => []
  | c :: cs => (if c.isUpper then ['!', c.toLower] else [c]) ++ goLowerChars cs

/-- `_go_lower_case`: module-cache escaping of an uppercase character as
`!` plus its lowercase form. -/
def _go_lower_case (txt : String) : String := ⟨goLowerChars txt.data⟩

/-- The run's read-only environment: the filesystem (path to content),
the external JSON deserializer (`json.load`, whose failure is fatal),
`gomodcache` from `go env GOMODCACHE`, and `os.path.dirname(__file__)`. -/
structure Env where
  fs : String → Option String
  parseJson : String → Except PyError Json
  gomodcache : String
  scriptDir : String

/-- `find_go_pkg_license_via_fs` (licenses.py:80-95). -/
def find_go_pkg_license_via_fs (env : Env) (pkg ver : String) : Option String :=
  let fspath :=
    (pySplit '/' pkg).foldl (fun acc part => acc ++ "/" ++ _go_lower_case part) env.gomodcache
  if (env.fs (fspath ++ "@" ++ ver ++ "/LICENSE")).isSome then
    some (fspath ++ "@" ++ ver ++ "/LICENSE")
  else if (env.fs (fspath ++ "@" ++ ver ++ "/LICENSE.txt")).isSome then
    some (fspath ++ "@" ++ ver ++ "/LICENSE.txt")
  else if (env.fs (fspath ++ "@" ++ ver ++ "/LICENSE.md")).isSome then
    some (fspath ++ "@" ++ ver ++ "/LICENSE.md")
  else none

/-- `fetch_go_pkg_license_via_network` (licenses.py:98-99): the body is
`raise NotImplementedError`, so the call never returns a value. -/
def fetch_go_pkg_license_via_network (_pkg _ver : String) : Except PyError (Option String) :=
  Except.error PyError.notImplementedError

/-- Python `dict.get(key, default)`; on a non-`dict` receiver the attribute
access raises `AttributeError`. -/
def pyGet (j : Json) (key : String) (dflt : Json) : Except PyError Json :=
  match j with
  | Json.obj fields =>
    match fields.find? (fun p => p.1 == key) with
    | some p => Except.ok p.2
    | none => Except.ok dflt
  | _ => Except.error PyError.attributeError

/-- Python `.keys()`: defined on `dict` only; a `list` (or any other
value) has no `keys` attribute and raises `AttributeError`. -/
def pyKeys : Json → Except PyError (List String)
  | Json.obj fields => Except.ok (fields.map (fun p => p.1))
  | _ => Except.error PyError.attributeError

/-- Python truthiness of a JSON value. -/
def pyTruthy : Json → Bool
  | Json.null => false
  | Json.bool b => b
  | Json.num n => n != 0
  | Json.str s => s != ""
  | Json.arr xs => !xs.isEmpty
  | Json.obj fields => !fields.isEmpty

/-- `parse_npm_package_json` (licenses.py:107-124), applied to the parsed
manifest object.  Note the source's `info.get("dependencies", [])` and
`info.get("devDependencies", [])` default to a Python *list*, on which the
subsequent `.keys()` call raises `AttributeError`. -/
def parse_npm_package_json (j : Json) (ignores : List String) : Except PyError (List NpmPkg) :=
  match pyGet j "dependencies" (Json.arr []) with
  | Except.error e => Except.error e
  | Except.ok deps =>
    match pyGet j "devDependencies" (Json.arr []) with
    | Except.error e => Except.error e
    | Except.ok devDeps =>
      match pyKeys deps with
      | Except.error e => Except.error e
      | Except.ok depKeys =>
        match pyKeys devDeps with
        | Except.error e => Except.error e
        | Except.ok devKeys =>
          Except.ok
            ((depKeys.filter (fun n => !(!ignores.isEmpty && ignores.contains n))).map
                (fun n => { name := n, tag := "deps" }) ++
              (devKeys.filter (fun n => !(!ignores.isEmpty && ignores.contains n))).map
                (fun n => { name := n, tag := "dev-deps" }))

/-- `os.path.dirname`: everything before the final path separator
(empty when the path has no separator). -/
def dirOf (p : String) : String :=
  let parts := pySplit '/' p
  if parts.length ≤ 1 then "" else String.intercalate "/" parts.dropLast

/-- `os.path.join` for the two-argument uses in the program. -/
def pathJoin (a b : String) : String :=
  if a = "" then b else a ++ "/" ++ b

/-- `find_npm_pkg_license_via_fs` (licenses.py:127-152).  Returns the
resolved value (a license-file path, a bundled canonical-license path, or
the raw `license` field string) together with the diagnostic lines printed
(`print(f"license name: {license}")`). -/
def find_npm_pkg_license_via_fs (env : Env) (pkgjsonfp pkg : String) :
    Except PyError (Option String × List String) :=
  let root := dirOf pkgjsonfp
  let base := root ++ "/node_modules/" ++ pkg
  if (env.fs (base ++ "/LICENSE")).isSome then Except.ok (some (base ++ "/LICENSE"), [])
  else if (env.fs (base ++ "/LICENSE.txt")).isSome then Except.ok (some (base ++ "/LICENSE.txt"), [])
  else if (env.fs (base ++ "/LICENSE.md")).isSome then Except.ok (some (base ++ "/LICENSE.md"), [])
  else
    match env.fs (base ++ "/package.json") with
    | some content =>
      match env.parseJson content with
      | Except.error e => Except.error e
      | Except.ok info =>
        match pyGet info "license" Json.null with
        | Except.error e => Except.error e
        | Except.ok lic =>
          if pyTruthy lic then
            match lic with
            | Json.str s =>
              if pyLower s == "mit" then
                Except.ok (some (pathJoin env.scriptDir "mit.license"), [])
              else if pyLower s == "apache-2.0" then
                Except.ok (some (pathJoin env.scriptDir "apache.2.0.license"), [])
              else
                Except.ok (some s, ["license name: " ++ s])
            | _ => Except.error PyError.attributeError
          else
            Except.ok (none, [])
    | none => Except.ok (none, [])

/-- `find_npm_pkg_license_via_network` (licenses.py:155-156): the body is
`raise NotImplementedError`. -/
def find_npm_pkg_license_via_network (_pkg : String) : Except PyError (Option String) :=
  Except.error PyError.notImplementedError

/-- The process-wide interning state: `LINCESE_SEQ` and `ALL_LICENSES`
(licenses.py:159-160).  The table keeps Python-`dict` insertion order. -/
structure LicState where
  seq : Nat
  table : List (String × Nat)
deriving DecidableEq, Repr

/-- `ALL_LICENSES.get(content)`. -/
def lookupTable (t : List (String × Nat)) (k : String) : Option Nat :=
  (t.find? (fun p => p.1 == k)).map (fun p => p.2)

/-- Python `dict` assignment `ALL_LICENSES[content] = v`: updating an
existing key keeps its position, a new key is appended. -/
def tableInsert (t : List (String × Nat)) (k : String) (v : Nat) : List (String × Nat) :=
  if (t.find? (fun p => p.1 == k)).isSome then
    t.map (fun p => if p.1 == k then (k, v) else p)
  else t ++ [(k, v)]

/-- The interning core of `read_license` (licenses.py:171-178), from the
already-normalized content key: `if not lid` treats both a missing key and
a zero id as unassigned. -/
def internLicense (content : String) (st : LicState) : Nat × LicState :=
  match lookupTable st.table content with
  | some lid =>
    if lid ≠ 0 then (lid, st)
    else (st.seq + 1, ⟨st.seq + 1, tableInsert st.table content (st.seq + 1)⟩)
  | none => (st.seq + 1, ⟨st.seq + 1, tableInsert st.table content (st.seq + 1)⟩)

/-- Content normalization in `read_license` (licenses.py:164-169): an
existing file contributes its text stripped of surrounding whitespace;
any other value is used verbatim as the content key. -/
def resolveContent (env : Env) (fp : String) : String :=
  match env.fs fp with
  | some txt => pyStrip txt
  | none => fp

/-- `read_license` (licenses.py:163-178). -/
def read_license (env : Env) (fp : String) (st : LicState) : Nat × LicState :=
  internLicense (resolveContent env fp) st

/-- Initial interning state: `LINCESE_SEQ = 1`, `ALL_LICENSES = {}`. -/
def initLicState : LicState := ⟨1, []⟩

/-- The mutable state of `main`'s file loop: the `go_pkgs` and `npm_pkgs`
item lists, the interning state, and the diagnostics printed so far. -/
structure LoopState where
  goItems : List (GoPkg × Nat)
  npmItems : List (NpmPkg × Nat)
  lic : LicState
  logs : List String
deriving DecidableEq, Repr

/-- Initial loop state of a run. -/
def initLoopState : LoopState := ⟨[], [], initLicState, []⟩

/-- The per-dependency body of `main`'s go branch (licenses.py:204-212). -/
def processGoPkgs (env : Env) (st : LoopState) : List GoPkg → Except PyError LoopState
  | [] => Except.ok st
  | pkg :: rest =>
    match find_go_pkg_license_via_fs env pkg.name pkg.version with
    | some lic =>
      let r := read_license env lic st.lic
      processGoPkgs env
        { st with goItems := st.goItems ++ [(pkg, r.1)], lic := r.2 } rest
    | none =>
      match fetch_go_pkg_license_via_network pkg.name pkg.version with
      | Except.error e => Except.error e
      | Except.ok none =>
        processGoPkgs env
          { st with logs := st.logs ++ ["go pkg license not found: " ++ pkg.name ++ "@" ++ pkg.version] } rest
      | Except.ok (some lic) =>
        let r := read_license env lic st.lic
        processGoPkgs env
          { st with goItems := st.goItems ++ [(pkg, r.1)], lic := r.2 } rest

/-- The per-dependency body of `main`'s npm branch (licenses.py:215-223). -/
def processNpmPkgs (env : Env) (fp : String) (st : LoopState) : List NpmPkg → Except PyError LoopState
  | [] => Except.ok st
  | pkg :: rest =>
    match find_npm_pkg_license_via_fs env fp pkg.name with
    | Except.error e => Except.error e
    | Except.ok (found, lg) =>
      let st := { st with logs := st.logs ++ lg }
      match found with
      | some lic =>
        let r := read_license env lic st.lic
        processNpmPkgs env fp
          { st with npmItems := st.npmItems ++ [(pkg, r.1)], lic := r.2 } rest
      | none =>
        match find_npm_pkg_license_via_network pkg.name with
        | Except.error e => Except.error e
        | Except.ok none =>
          processNpmPkgs env fp
            { st with logs := st.logs ++ ["npm pkg license not found: " ++ pkg.name] } rest
        | Except.ok (some lic) =>
          let r := read_license env lic st.lic
          processNpmPkgs env fp
            { st with npmItems := st.npmItems ++ [(pkg, r.1)], lic := r.2 } rest

/-- One iteration of `main`'s file loop (licenses.py:198-223). -/
def processFile (env : Env) (igGo igNpm : List String) (st : LoopState) (fp : String) :
    Except PyError LoopState :=
  match env.fs fp with
  | none => Except.ok { st with logs := st.logs ++ ["file not found: " ++ fp] }
  | some content =>
    if pyEndsWith fp "go.mod" then
      processGoPkgs env st (parse_pkgs_go_mod content igGo)
    else if pyEndsWith fp "package.json" then
      match env.parseJson content with
      | Except.error e => Except.error e
      | Except.ok j =>
        match parse_npm_package_json j igNpm with
        | Except.error e => Except.error e
        | Except.ok pkgs => processNpmPkgs env fp st pkgs
    else Except.ok st

/-- `main`'s file loop over the input paths, in order. -/
def processFiles (env : Env) (igGo igNpm : List String) (st : LoopState) :
    List String → Except PyError LoopState
  | [] => Except.ok st
  | fp :: rest =>
    match processFile env igGo igNpm st fp with
    | Except.error e => Except.error e
    | Except.ok st' => processFiles env igGo igNpm st' rest

/-- One `<li>` of the Go section of `opensource.deps.html`
(licenses.py:242-249). -/
def renderGoLi (pkg : GoPkg) (lid : Nat) : String :=
  "<li data-lic=\"" ++ Nat.repr lid ++ "\" data-tag=\"" ++ pkg.tag ++
    "\" data-kind=\"go\">\n    <span>" ++ pkg.name ++
    "</span>\n    <span class=\"btn\">show license</span>\n    <span class=\"btn\">web page</span>\n</li>\n"

/-- One `<li>` of the NPM section of `opensource.deps.html`
(licenses.py:256-263). -/
def renderNpmLi (pkg : NpmPkg) (lid : Nat) : String :=
  "<li data-lic=\"" ++ Nat.repr lid ++ "\" data-tag=\"" ++ pkg.tag ++
    "\" data-kind=\"npm\">\n    <span>" ++ pkg.name ++
    "</span>\n    <span class=\"btn\">show license</span>\n    <span class=\"btn\">web page</span>\n</li>\n"

/-- The full `opensource.deps.html` document (licenses.py:238-266). -/
def renderHtml (goItems : List (GoPkg × Nat)) (npmItems : List (NpmPkg × Nat)) : String :=
  "<h2>Go Modules</h2>\n<ul>\n" ++
    String.join (goItems.map (fun p => renderGoLi p.1 p.2)) ++
    "</ul>\n<h2>NPM Modules</h2>\n<ul>\n" ++
    String.join (npmItems.map (fun p => renderNpmLi p.1 p.2)) ++
    "</ul>\n<p class=\"notice\">Praise the Sun, Praise Open Source. ☀️</p>\n"

/-- The observable outcome of a successful run: the resolved item lists,
the `licenses.json` table (id to content, in `ALL_LICENSES` insertion
order, exactly as the `lics` dict is built in licenses.py:225-227), the
report document, and the diagnostics printed. -/
structure RunResult where
  goItems : List (GoPkg × Nat)
  npmItems : List (NpmPkg × Nat)
  licenses : List (Nat × String)
  html : String
  logs : List String
deriving DecidableEq, Repr

/-- `main` (licenses.py:181-266) as a function of the environment, the
input paths and the two ignore lists (a `None` ignore list and an empty
one filter identically, so both are modelled by `[]`). -/
def mainRun (env : Env) (files : List String) (igGo igNpm : List String) :
    Except PyError RunResult :=
  match processFiles env igGo igNpm initLoopState files with
  | Except.error e => Except.error e
  | Except.ok st =>
    Except.ok
      { goItems := st.goItems
        npmItems := st.npmItems
        licenses := st.lic.table.map (fun p => (p.2, p.1))
        html := renderHtml st.goItems st.npmItems
        logs := st.logs }

/-!
Analysis-side definitions: a spec-level model of whitespace tokenization
(used to compare the spec's wording with the code), a canonical description
of reachable interning states, and concrete environments used to evaluate
the model at specific inputs.
-/

/-- Modelled from the spec's words (claim C5): split a line on runs of
arbitrary whitespace (Python `str.split()` with no argument), the reading
suggested by the spec's phrase "split on whitespace". -/
def splitPred (p : Char → Bool) : List Char → List (List Char)
  | [] => [[]]
  | c :: cs =>
    if p c then [] :: splitPred p cs
    else
      match splitPred p cs with
      | [] => [[c]]
      | t :: ts => (c :: t) :: ts

/-- Modelled from the spec's words (claim C5): the whitespace-separated
tokens of a line. -/
def wsTokens (line : String) : List String :=
  ((splitPred pyIsSpaceChar line.data).map String.mk).filter (fun x => x ≠ "")

/-- Modelled from the spec's words (claim C5): the records an in-block
require line should yield if the line were split on arbitrary whitespace
as the claim states (name is the first token, version the second,
classification from the trailing marker). -/
def specRequireLineRecord (line : String) : List GoPkg :=
  if (wsTokens line).length < 2 then []
  else
    [⟨(wsTokens line).getD 0 "", (wsTokens line).getD 1 "",
      if pyEndsWith line "// indirect" then "indirect" else "direct"⟩]

/-- Index of the first occurrence of `c` in `l` (length of `l` when absent). -/
def rankOf : List String → String → Nat
  | [], _ => 0
  | d :: l, c => if d = c then 0 else rankOf l c + 1

/-- Accumulate the distinct elements of the second list onto the first, in
first-seen order. -/
def firstSeenAux : List String → List String → List String
  | acc, [] => acc
  | acc, c :: cs => firstSeenAux (if c ∈ acc then acc else acc ++ [c]) cs

/-- The distinct contents of a run, in first-seen order. -/
def firstSeen (cs : List String) : List String := firstSeenAux [] cs

/-- The interning table whose entries are `l` keyed with consecutive ids
starting at `k`. -/
def tableFrom : Nat → List String → List (String × Nat)
  | _, [] => []
  | k, c :: l => (c, k) :: tableFrom (k + 1) l

/-- The interning state reached after the distinct contents `l` have been
assigned ids `2, 3, ...` in order. -/
def canonState (l : List String) : LicState := ⟨l.length + 1, tableFrom 2 l⟩

/-- Intern a list of contents in order, returning the assigned ids and the
final state. -/
def runInternFrom : LicState → List String → List Nat × LicState
  | st, [] => ([], st)
  | st, c :: cs =>
    let r := internLicense c st
    let rest := runInternFrom r.2 cs
    (r.1 :: rest.1, rest.2)

/-- The ids assigned to a list of contents interned from the initial state. -/
def runIds (cs : List String) : List Nat := (runInternFrom initLicState cs).1

/-- Environment exhibiting the unresolved-go-license behaviour: one
module-lock file whose single dependency has no cached license files. -/
def envGoBug : Env where
  fs := fun p => if p == "p/go.mod" then some "require (\n\texample.com/foo v1.0.0\n)" else none
  parseJson := fun _ => Except.error PyError.valueError
  gomodcache := "/cache"
  scriptDir := "/tool"

/-- Environment with an empty filesystem. -/
def envEmptyFs : Env where
  fs := fun _ => none
  parseJson := fun _ => Except.error PyError.valueError
  gomodcache := "/cache"
  scriptDir := "/tool"

/-- Environment with one file whose name is neither kind of manifest. -/
def envNotesTxt : Env where
  fs := fun p => if p == "notes.txt" then some "hello" else none
  parseJson := fun _ => Except.error PyError.valueError
  gomodcache := "/cache"
  scriptDir := "/tool"

/-- Environment with one installed npm package whose descriptor carries a
license name outside the two canonical ones. -/
def envNpmBsd : Env where
  fs := fun p => if p == "proj/node_modules/leftpad/package.json" then some "PKGJSON" else none
  parseJson := fun c =>
    if c == "PKGJSON" then Except.ok (Json.obj [("license", Json.str "BSD-3-Clause")])
    else Except.error PyError.valueError
  gomodcache := "/cache"
  scriptDir := "/tool"

/-!
Helper lemmas.
-/

lemma lookup_tableFrom (c : String) : ∀ (l : List String) (k : Nat),
    lookupTable (tableFrom k l) c = if c ∈ l then some (k + rankOf l c) else none := by
  intro l
  induction l with
  | nil => intro k; simp [tableFrom, lookupTable]
  | cons d l ih =>
    intro k
    by_cases h : d = c
    · subst h
      simp [tableFrom, lookupTable, List.find?, rankOf]
    · have hb : (d == c) = false := by simp [h]
      have ihk := ih (k + 1)
      unfold lookupTable at ihk ⊢
      simp only [tableFrom, List.find?, hb] at ihk ⊢
      rw [ihk]
      by_cases hc : c ∈ l
      · have hm : c ∈ d :: l := List.mem_cons_of_mem _ hc
        rw [if_pos hc, if_pos hm]
        have hdc : ¬ (d = c) := h
        simp [rankOf, hdc]
        omega
      · have hm : c ∉ d :: l := by
          intro hm
          rcases List.mem_cons.mp hm with h1 | h2
          · exact h h1.symm
          · exact hc h2
        rw [if_neg hc, if_neg hm]

lemma tableFrom_append (c : String) : ∀ (l : List String) (k : Nat),
    tableFrom k (l ++ [c]) = tableFrom k l ++ [(c, k + l.length)] := by
  intro l
  induction l with
  | nil => intro k; simp [tableFrom]
  | cons d l ih =>
    intro k
    have e : k + 1 + l.length = k + (d :: l).length := by simp; omega
    simp only [List.cons_append, tableFrom, List.append_eq, ih (k + 1), e]

lemma intern_canon (c : String) (l : List String) :
    internLicense c (canonState l) =
      if c ∈ l then (2 + rankOf l c, canonState l)
      else (l.length + 2, canonState (l ++ [c])) := by
  unfold internLicense canonState
  simp only
  rw [lookup_tableFrom]
  by_cases h : c ∈ l
  · rw [if_pos h, if_pos h]
    have : (2 + rankOf l c) ≠ 0 := by omega
    simp [this]
  · rw [if_neg h, if_neg h]
    have hfind : ((tableFrom 2 l).find? (fun p => p.1 == c)) = none := by
      have h2 := lookup_tableFrom c l 2
      rw [if_neg h] at h2
      unfold lookupTable at h2
      exact Option.map_eq_none.mp h2
    simp only [tableInsert, hfind, Option.isSome_none, Bool.false_eq_true, if_false]
    rw [tableFrom_append]
    simp
    omega

lemma firstSeenAux_app : ∀ (cs acc : List String), ∃ t, firstSeenAux acc cs = acc ++ t := by
  intro cs
  induction cs with
  | nil => intro acc; exact ⟨[], by simp [firstSeenAux]⟩
  | cons c cs ih =>
    intro acc
    by_cases h : c ∈ acc
    · obtain ⟨t, ht⟩ := ih acc
      exact ⟨t, by simp [firstSeenAux, h, ht]⟩
    · obtain ⟨t, ht⟩ := ih (acc ++ [c])
      refine ⟨[c] ++ t, ?_⟩
      simp only [firstSeenAux, if_neg h]
      rw [ht, List.append_assoc]

lemma rankOf_append_of_mem (c : String) : ∀ (l t : List String), c ∈ l →
    rankOf (l ++ t) c = rankOf l c := by
  intro l
  induction l with
  | nil => intro t h; simp at h
  | cons d l ih =>
    intro t h
    by_cases hdc : d = c
    · simp [rankOf, hdc]
    · have hc : c ∈ l := by
        rcases List.mem_cons.mp h with h1 | h2
        · exact absurd h1.symm hdc
        · exact h2
      simp [rankOf, hdc, ih t hc]

lemma rankOf_append_self (c : String) : ∀ (l : List String), c ∉ l →
    rankOf (l ++ [c]) c = l.length := by
  intro l
  induction l with
  | nil => intro _; simp [rankOf]
  | cons d l ih =>
    intro h
    have hdc : ¬ (d = c) := fun e => h (by simp [e])
    have hc : c ∉ l := fun hm => h (List.mem_cons_of_mem _ hm)
    simp [rankOf, hdc, ih hc]

lemma rank_firstSeenAux_of_mem (cs acc : List String) (c : String) (h : c ∈ acc) :
    rankOf (firstSeenAux acc cs) c = rankOf acc c := by
  obtain ⟨t, ht⟩ := firstSeenAux_app cs acc
  rw [ht, rankOf_append_of_mem c acc t h]

lemma runIntern_canon : ∀ (cs acc : List String),
    (runInternFrom (canonState acc) cs).2 = canonState (firstSeenAux acc cs) ∧
    (runInternFrom (canonState acc) cs).1.length = cs.length ∧
    (∀ i, i < cs.length →
      (runInternFrom (canonState acc) cs).1.getD i 0 =
        2 + rankOf (firstSeenAux acc cs) (cs.getD i "")) := by
  intro cs
  induction cs with
  | nil =>
    intro acc
    refine ⟨rfl, rfl, ?_⟩
    intro i hi
    simp at hi
  | cons c cs ih =>
    intro acc
    by_cases h : c ∈ acc
    · have hfs : firstSeenAux acc (c :: cs) = firstSeenAux acc cs := by
        simp [firstSeenAux, h]
      have hstep : internLicense c (canonState acc) = (2 + rankOf acc c, canonState acc) := by
        rw [intern_canon, if_pos h]
      have hrun : runInternFrom (canonState acc) (c :: cs) =
          ((2 + rankOf acc c) :: (runInternFrom (canonState acc) cs).1,
            (runInternFrom (canonState acc) cs).2) := by
        simp [runInternFrom, hstep]
      obtain ⟨ih1, ih2, ih3⟩ := ih acc
      refine ⟨?_, ?_, ?_⟩
      · rw [hrun, hfs]; exact ih1
      · rw [hrun]; simpa using ih2
      · intro i hi
        rw [hrun, hfs]
        cases i with
        | zero =>
          simp only [List.getD_cons_zero]
          rw [rank_firstSeenAux_of_mem cs acc c h]
        | succ i =>
          simp only [List.getD_cons_succ]
          exact ih3 i (by simpa using hi)
    · have hfs : firstSeenAux acc (c :: cs) = firstSeenAux (acc ++ [c]) cs := by
        simp [firstSeenAux, h]
      have hstep : internLicense c (canonState acc) =
          (acc.length + 2, canonState (acc ++ [c])) := by
        rw [intern_canon, if_neg h]
      have hrun : runInternFrom (canonState acc) (c :: cs) =
          ((acc.length + 2) :: (runInternFrom (canonState (acc ++ [c])) cs).1,
            (runInternFrom (canonState (acc ++ [c])) cs).2) := by
        simp [runInternFrom, hstep]
      obtain ⟨ih1, ih2, ih3⟩ := ih (acc ++ [c])
      refine ⟨?_, ?_, ?_⟩
      · rw [hrun, hfs]; exact ih1
      · rw [hrun]; simpa using ih2
      · intro i hi
        rw [hrun, hfs]
        cases i with
        | zero =>
          simp only [List.getD_cons_zero]
          have hm : c ∈ acc ++ [c] := by simp
          rw [rank_firstSeenAux_of_mem cs (acc ++ [c]) c hm, rankOf_append_self c acc h]
          omega
        | succ i =>
          simp only [List.getD_cons_succ]
          exact ih3 i (by simpa using hi)

lemma goLowerChars_append (a b : List Char) :
    goLowerChars (a ++ b) = goLowerChars a ++ goLowerChars b := by
  induction a with
  | nil => simp [goLowerChars]
  | cons c a ih => simp [goLowerChars, ih]

lemma goLowerChars_id (l : List Char) (h : ∀ c ∈ l, c.isUpper = false) :
    goLowerChars l = l := by
  induction l with
  | nil => rfl
  | cons c cs ih =>
    have hc := h c (by simp)
    simp [goLowerChars, hc, ih (fun d hd => h d (by simp [hd]))]

lemma str_append_assoc (a b c : String) : a ++ b ++ c = a ++ (b ++ c) := by
  apply String.ext
  simp [String.data_append, List.append_assoc]

lemma renderNpmLi_decomp (pkg : NpmPkg) (lid : Nat) :
    renderNpmLi pkg lid =
      "<li " ++ ("data-lic=\"" ++ Nat.repr lid ++ "\"") ++ " " ++
        ("data-tag=\"" ++ pkg.tag ++ "\"") ++ " " ++ "data-kind=\"npm\"" ++
        (">\n    <span>" ++ pkg.name ++
          "</span>\n    <span class=\"btn\">show license</span>\n    <span class=\"btn\">web page</span>\n</li>\n") := by
  have e1 : ("<li data-lic=\"" : String) = "<li " ++ "data-lic=\"" := rfl
  have e2 : ("\" data-tag=\"" : String) = "\"" ++ " " ++ "data-tag=\"" := rfl
  have e3 : ("\" data-kind=\"npm\">\n    <span>" : String) =
      "\"" ++ " " ++ "data-kind=\"npm\"" ++ ">\n    <span>" := rfl
  unfold renderNpmLi
  rw [e1, e2, e3]
  simp only [str_append_assoc]

/-!
Claim theorems.
-/

/-- Claim C1.  The claim says an unresolvable license is logged, the
dependency excluded, and the run continues.  On the code this fails: for a
module-lock dependency with no cached license file, `main` calls the
network stub, which raises `NotImplementedError`; the exception is not
caught, so the run aborts before writing any artifact, and the
log-and-skip code after the call is unreachable.  This theorem evaluates
the model at such an input: the dependency parses, the filesystem lookup
fails, and the whole run ends in the uncaught error. -/
theorem go_license_unfound_aborts :
    parse_pkgs_go_mod "require (\n\texample.com/foo v1.0.0\n)" [] =
      [⟨"example.com/foo", "v1.0.0", "direct"⟩] ∧
    find_go_pkg_license_via_fs envGoBug "example.com/foo" "v1.0.0" = none ∧
    fetch_go_pkg_license_via_network "example.com/foo" "v1.0.0" =
      Except.error PyError.notImplementedError ∧
    mainRun envGoBug ["p/go.mod"] [] [] = Except.error PyError.notImplementedError := by
  refine ⟨by decide, by decide, rfl, by decide⟩

/-- Claim C2.  The claim says a manifest object lacking `dependencies` or
`devDependencies` parses successfully with the absent field treated as
empty.  On the code this fails: the `.get` default is a Python list, and
the subsequent `.keys()` call on it raises `AttributeError`, so a manifest
missing either field aborts parsing; only a manifest carrying both fields
parses (last conjunct). -/
theorem npm_manifest_missing_fields_raises :
    parse_npm_package_json (Json.obj []) [] = Except.error PyError.attributeError ∧
    parse_npm_package_json (Json.obj [("dependencies", Json.obj [("left-pad", Json.str "1.2.0")])])
      [] = Except.error PyError.attributeError ∧
    parse_npm_package_json (Json.obj [("devDependencies", Json.obj [])]) [] =
      Except.error PyError.attributeError ∧
    parse_npm_package_json
      (Json.obj [("dependencies", Json.obj [("left-pad", Json.str "1.2.0")]),
                 ("devDependencies", Json.obj [])]) [] =
      Except.ok [⟨"left-pad", "deps"⟩] :=
  ⟨rfl, rfl, rfl, rfl⟩

/-- Claim C3.  `read_license` normalizes its argument to a content key
(file text stripped of surrounding whitespace, or the raw string verbatim)
and interns it: in any run from the initial state, every resolution's id is
two plus the first-seen rank of its content, hence identical contents get
the same id, contents first seen earlier get strictly smaller ids, and the
first distinct content gets id 2 (the counter starts at 1 and is
pre-incremented before the first assignment). -/
theorem read_license_dedup_ids (cs : List String) :
    (∀ (env : Env) (fp : String) (st : LicState),
      read_license env fp st = internLicense (resolveContent env fp) st) ∧
    (runIds cs).length = cs.length ∧
    (∀ i, i < cs.length →
      (runIds cs).getD i 0 = 2 + rankOf (firstSeen cs) (cs.getD i "")) ∧
    (∀ i j, i < cs.length → j < cs.length → cs.getD i "" = cs.getD j "" →
      (runIds cs).getD i 0 = (runIds cs).getD j 0) ∧
    (∀ i j, i < cs.length → j < cs.length →
      rankOf (firstSeen cs) (cs.getD i "") < rankOf (firstSeen cs) (cs.getD j "") →
      (runIds cs).getD i 0 < (runIds cs).getD j 0) ∧
    (cs ≠ [] → (runIds cs).getD 0 0 = 2) := by
  obtain ⟨k1, k2, k3⟩ := runIntern_canon cs []
  have hids : runIds cs = (runInternFrom (canonState []) cs).1 := rfl
  have hfst : firstSeen cs = firstSeenAux [] cs := rfl
  refine ⟨fun env fp st => rfl, ?_, ?_, ?_, ?_, ?_⟩
  · rw [hids]; exact k2
  · intro i hi; rw [hids, hfst]; exact k3 i hi
  · intro i j hi hj hcc
    rw [hids, k3 i hi, k3 j hj, hcc]
  · intro i j hi hj hr
    rw [hfst] at hr
    rw [hids, k3 i hi, k3 j hj]
    omega
  · intro hne
    cases cs with
    | nil => exact absurd rfl hne
    | cons c cs =>
      rw [hids, k3 0 (by simp)]
      have h1 : firstSeenAux [] (c :: cs) = firstSeenAux [c] cs := by
        simp [firstSeenAux]
      have h2 : rankOf (firstSeenAux [c] cs) c = rankOf [c] c :=
        rank_firstSeenAux_of_mem cs [c] c (by simp)
      rw [List.getD_cons_zero, h1, h2]
      simp [rankOf]

/-- Claim C3, witness: in the run over contents a, b, a the first and third
resolutions (identical content) receive the same id. -/
theorem read_license_dedup_ids_witness :
    (runIds ["a", "b", "a"]).getD 0 0 = (runIds ["a", "b", "a"]).getD 2 0 :=
  (read_license_dedup_ids ["a", "b", "a"]).2.2.2.1 0 2 (by decide) (by decide) (by decide)

/-- Claim C4.  `_go_lower_case` leaves a segment with no uppercase
characters unchanged, rewrites a single uppercase character to an
exclamation mark followed by its lowercase form, distributes over
concatenation (so it acts character by character), and maps the segment
FooBar to !foo!bar. -/
theorem go_lower_case_rewrites :
    (∀ s : String, (∀ c ∈ s.data, c.isUpper = false) → _go_lower_case s = s) ∧
    (∀ c : Char, _go_lower_case ⟨[c]⟩ =
      if c.isUpper then ⟨['!', c.toLower]⟩ else ⟨[c]⟩) ∧
    (∀ s t : String, _go_lower_case (s ++ t) = _go_lower_case s ++ _go_lower_case t) ∧
    _go_lower_case "FooBar" = "!foo!bar" := by
  refine ⟨?_, ?_, ?_, by decide⟩
  · intro s h
    apply String.ext
    exact goLowerChars_id s.data h
  · intro c
    apply String.ext
    show goLowerChars [c] = (if c.isUpper then (⟨['!', c.toLower]⟩ : String) else ⟨[c]⟩).data
    by_cases hc : c.isUpper <;> simp [goLowerChars, hc]
  · intro s t
    apply String.ext
    show goLowerChars (s ++ t).data = (_go_lower_case s ++ _go_lower_case t).data
    rw [String.data_append, String.data_append, goLowerChars_append]
    rfl

/-- Claim C4, witness: a segment with no uppercase characters maps to
itself. -/
theorem go_lower_case_rewrites_witness : _go_lower_case "foobar" = "foobar" :=
  go_lower_case_rewrites.1 "foobar" (by decide)

/-- Claim C5, counterexample.  The claim says an in-block require line is
split on whitespace; the code splits on the space character only.  On the
tab-separated line the whitespace reading predicts one record (name foo,
version v1.0.0) while the parser, seeing a single space-separated token,
yields none. -/
theorem require_line_tab_cx :
    wsTokens "foo\tv1.0.0" = ["foo", "v1.0.0"] ∧
    specRequireLineRecord "foo\tv1.0.0" = [⟨"foo", "v1.0.0", "direct"⟩] ∧
    spaceTokens (pyStrip "foo\tv1.0.0") = ["foo\tv1.0.0"] ∧
    parseGoModLines [] true ["foo\tv1.0.0"] = [] ∧
    parseGoModLines [] true ["foo\tv1.0.0"] ≠ specRequireLineRecord "foo\tv1.0.0" := by decide

/-- Claim C5 as amended: inside a require block, a non-blank, non-comment,
non-closing line is stripped and split on the space character (empty
fields discarded); fewer than two tokens yield no record, otherwise
exactly one record with the first token as name, the second as version,
and classification indirect exactly when the line ends with the trailing
marker. -/
theorem require_line_space_split (l : String)
    (h1 : pyStrip l ≠ "") (h2 : pyStartsWith (pyStrip l) "//" = false)
    (h3 : pyStrip l ≠ ")") :
    parseGoModLines [] true [l] =
      (if (spaceTokens (pyStrip l)).length < 2 then []
       else [⟨(spaceTokens (pyStrip l)).getD 0 "", (spaceTokens (pyStrip l)).getD 1 "",
              if pyEndsWith (pyStrip l) "// indirect" then "indirect" else "direct"⟩]) := by
  have hshape : parseGoModLines [] true [l] =
      (if pyStrip l = "" then []
       else if pyStartsWith (pyStrip l) "//" then []
       else if pyStrip l = ")" then []
       else appendPkg [] (pyStrip l) ++ []) := rfl
  rw [hshape, if_neg h1, if_neg (by simp [h2]), if_neg h3, List.append_nil]
  by_cases hlen : (spaceTokens (pyStrip l)).length < 2
  · simp [appendPkg, hlen]
  · simp [appendPkg, hlen]

/-- Claim C5 (amended), witness: a well-formed indirect line yields its one
record. -/
theorem require_line_space_split_witness :
    parseGoModLines [] true ["foo v1.0.0 // indirect"] = [⟨"foo", "v1.0.0", "indirect"⟩] :=
  (require_line_space_split "foo v1.0.0 // indirect" (by decide) (by decide) (by decide)).trans
    (by decide)

/-- Claim C6.  When none of the three license files exists but the
package descriptor parses and carries a non-empty string `license` field,
the locator returns the bundled canonical file path for mit or apache-2.0
(compared case-insensitively) and otherwise returns the raw string itself,
logging it. -/
theorem npm_license_field_resolution (env : Env) (pkgjsonfp pkg d s : String) (info : Json)
    (h1 : env.fs (dirOf pkgjsonfp ++ "/node_modules/" ++ pkg ++ "/LICENSE") = none)
    (h2 : env.fs (dirOf pkgjsonfp ++ "/node_modules/" ++ pkg ++ "/LICENSE.txt") = none)
    (h3 : env.fs (dirOf pkgjsonfp ++ "/node_modules/" ++ pkg ++ "/LICENSE.md") = none)
    (h4 : env.fs (dirOf pkgjsonfp ++ "/node_modules/" ++ pkg ++ "/package.json") = some d)
    (h5 : env.parseJson d = Except.ok info)
    (h6 : pyGet info "license" Json.null = Except.ok (Json.str s))
    (h7 : s ≠ "") :
    find_npm_pkg_license_via_fs env pkgjsonfp pkg =
      (if pyLower s == "mit" then
        Except.ok (some (pathJoin env.scriptDir "mit.license"), [])
      else if pyLower s == "apache-2.0" then
        Except.ok (some (pathJoin env.scriptDir "apache.2.0.license"), [])
      else Except.ok (some s, ["license name: " ++ s])) := by
  unfold find_npm_pkg_license_via_fs
  simp only [h1, h2, h3, h4, h5, h6, Option.isSome_none, Bool.false_eq_true, if_false,
    pyTruthy]
  have hs : (s != "") = true := by simp [bne, h7]
  simp [hs]

/-- Claim C6, witness: a descriptor naming BSD-3-Clause resolves to the
raw string with the diagnostic line. -/
theorem npm_license_field_resolution_witness :
    find_npm_pkg_license_via_fs envNpmBsd "proj/package.json" "leftpad" =
      Except.ok (some "BSD-3-Clause", ["license name: BSD-3-Clause"]) :=
  (npm_license_field_resolution envNpmBsd "proj/package.json" "leftpad" "PKGJSON"
    "BSD-3-Clause" (Json.obj [("license", Json.str "BSD-3-Clause")])
    rfl rfl rfl rfl rfl rfl (by decide)).trans (by decide)

/-- Claim C7, counterexample.  The claim names the classifications
runtime-dep and dev-dep; the code's literal tags, which also appear as the
data-tag attribute value in the report, are deps and dev-deps. -/
theorem npm_tag_literal_cx :
    parse_npm_package_json
      (Json.obj [("dependencies", Json.obj [("left-pad", Json.str "1.2.0")]),
                 ("devDependencies", Json.obj [("mocha", Json.str "8.0.0")])]) [] =
      Except.ok [⟨"left-pad", "deps"⟩, ⟨"mocha", "dev-deps"⟩] ∧
    ("deps" : String) ≠ "runtime-dep" ∧ ("dev-deps" : String) ≠ "dev-dep" := by decide

/-- Claim C7 as amended: every key of `dependencies` becomes a record
tagged deps and every key of `devDependencies` one tagged dev-deps, in
order, and the rendered report list item of a resolved npm dependency
carries three data attributes: the resolved license id, the record's
classification tag, and the manifest kind npm. -/
theorem npm_tags_and_html_attrs :
    (∀ (deps dev : List (String × Json)),
      parse_npm_package_json
        (Json.obj [("dependencies", Json.obj deps), ("devDependencies", Json.obj dev)]) [] =
        Except.ok ((deps.map fun p => NpmPkg.mk p.1 "deps") ++
          (dev.map fun p => NpmPkg.mk p.1 "dev-deps"))) ∧
    (∀ (pkg : NpmPkg) (lid : Nat),
      (∃ a b : String,
        renderNpmLi pkg lid = a ++ ("data-lic=\"" ++ Nat.repr lid ++ "\"") ++ b) ∧
      (∃ a b : String,
        renderNpmLi pkg lid = a ++ ("data-tag=\"" ++ pkg.tag ++ "\"") ++ b) ∧
      (∃ a b : String, renderNpmLi pkg lid = a ++ "data-kind=\"npm\"" ++ b)) := by
  constructor
  · intro deps dev
    have g1 : pyGet (Json.obj [("dependencies", Json.obj deps), ("devDependencies", Json.obj dev)])
        "dependencies" (Json.arr []) = Except.ok (Json.obj deps) := rfl
    have g2 : pyGet (Json.obj [("dependencies", Json.obj deps), ("devDependencies", Json.obj dev)])
        "devDependencies" (Json.arr []) = Except.ok (Json.obj dev) := rfl
    simp only [parse_npm_package_json, g1, g2, pyKeys, List.isEmpty_nil, Bool.not_true,
      Bool.false_and, Bool.not_false, List.filter_true, List.map_map]
    rfl
  · intro pkg lid
    have hd := renderNpmLi_decomp pkg lid
    refine ⟨⟨"<li ",
        " " ++ ("data-tag=\"" ++ pkg.tag ++ "\"") ++ " " ++ "data-kind=\"npm\"" ++
          (">\n    <span>" ++ pkg.name ++
            "</span>\n    <span class=\"btn\">show license</span>\n    <span class=\"btn\">web page</span>\n</li>\n"),
        ?_⟩,
      ⟨"<li " ++ ("data-lic=\"" ++ Nat.repr lid ++ "\"") ++ " ",
        " " ++ "data-kind=\"npm\"" ++
          (">\n    <span>" ++ pkg.name ++
            "</span>\n    <span class=\"btn\">show license</span>\n    <span class=\"btn\">web page</span>\n</li>\n"),
        ?_⟩,
      ⟨"<li " ++ ("data-lic=\"" ++ Nat.repr lid ++ "\"") ++ " " ++
          ("data-tag=\"" ++ pkg.tag ++ "\"") ++ " ",
        ">\n    <span>" ++ pkg.name ++
          "</span>\n    <span class=\"btn\">show license</span>\n    <span class=\"btn\">web page</span>\n</li>\n",
        ?_⟩⟩ <;>
    · simp only [hd, str_append_assoc]

/-- Claim C8.  The run is a pure function of the environment (filesystem,
JSON deserializer, cache root, tool directory), the input paths and the
ignore lists: two runs over unchanged inputs produce the same outcome, in
particular the same licenses table (same contents, same ids, same order),
from which byte-identical serialized output follows. -/
theorem mainRun_deterministic (e₁ e₂ : Env) (f₁ f₂ g₁ g₂ n₁ n₂ : List String)
    (he : e₁ = e₂) (hf : f₁ = f₂) (hg : g₁ = g₂) (hn : n₁ = n₂) :
    mainRun e₁ f₁ g₁ n₁ = mainRun e₂ f₂ g₂ n₂ ∧
    Except.map RunResult.licenses (mainRun e₁ f₁ g₁ n₁) =
      Except.map RunResult.licenses (mainRun e₂ f₂ g₂ n₂) := by
  subst he; subst hf; subst hg; subst hn
  exact ⟨rfl, rfl⟩

/-- Claim C8, witness: determinism instantiated at a concrete run. -/
theorem mainRun_deterministic_witness :
    mainRun envEmptyFs ["go.mod"] [] [] = mainRun envEmptyFs ["go.mod"] [] [] :=
  (mainRun_deterministic envEmptyFs envEmptyFs ["go.mod"] ["go.mod"] [] [] [] []
    rfl rfl rfl rfl).1

/-- Claim C9.  An existing input file whose name ends in neither go.mod
nor package.json is skipped silently: processing it leaves the loop state
untouched (no records, no interned licenses, no diagnostics), and a run
with it in the input list equals the run without it. -/
theorem unrecognized_suffix_ignored (env : Env) (igGo igNpm : List String) (fp : String)
    (h1 : (env.fs fp).isSome = true)
    (h2 : pyEndsWith fp "go.mod" = false)
    (h3 : pyEndsWith fp "package.json" = false) :
    (∀ st, processFile env igGo igNpm st fp = Except.ok st) ∧
    (∀ pre post, mainRun env (pre ++ fp :: post) igGo igNpm =
      mainRun env (pre ++ post) igGo igNpm) := by
  have hskip : ∀ st, processFile env igGo igNpm st fp = Except.ok st := by
    intro st
    obtain ⟨c, hc⟩ := Option.isSome_iff_exists.mp h1
    unfold processFile
    rw [hc]
    simp [h2, h3]
  refine ⟨hskip, ?_⟩
  have hfiles : ∀ (pre : List String) (st : LoopState) (post : List String),
      processFiles env igGo igNpm st (pre ++ fp :: post) =
        processFiles env igGo igNpm st (pre ++ post) := by
    intro pre
    induction pre with
    | nil =>
      intro st post
      have l1 : processFiles env igGo igNpm st ([] ++ fp :: post) =
          (match processFile env igGo igNpm st fp with
           | Except.error e => Except.error e
           | Except.ok st' => processFiles env igGo igNpm st' post) := rfl
      rw [l1, hskip st]
      rfl
    | cons q pre ih =>
      intro st post
      have l1 : processFiles env igGo igNpm st ((q :: pre) ++ fp :: post) =
          (match processFile env igGo igNpm st q with
           | Except.error e => Except.error e
           | Except.ok st' => processFiles env igGo igNpm st' (pre ++ fp :: post)) := rfl
      have l2 : processFiles env igGo igNpm st ((q :: pre) ++ post) =
          (match processFile env igGo igNpm st q with
           | Except.error e => Except.error e
           | Except.ok st' => processFiles env igGo igNpm st' (pre ++ post)) := rfl
      rw [l1, l2]
      cases processFile env igGo igNpm st q with
      | error e => rfl
      | ok st' => exact ih st' post
  intro pre post
  unfold mainRun
  rw [hfiles pre initLoopState post]

/-- Claim C9, witness: a run over one text file equals the empty run. -/
theorem unrecognized_suffix_ignored_witness :
    mainRun envNotesTxt ["notes.txt"] [] [] = mainRun envNotesTxt [] [] [] :=
  (unrecognized_suffix_ignored envNotesTxt [] [] "notes.txt"
    (by decide) (by decide) (by decide)).2 [] []

/-- Claim C10.  The line opening a require block is consumed by the
require check and never recorded, even when it carries a name and version;
after it, subsequent lines are processed as in-block until a closing
parenthesis line, after which lines are outside again. -/
theorem require_open_line_not_recorded :
    parse_pkgs_go_mod "require foo v1.0.0" [] = [] ∧
    (∀ (ig rest : List String),
      parseGoModLines ig false ("require foo v1.0.0" :: rest) = parseGoModLines ig true rest) ∧
    parse_pkgs_go_mod "require foo v1.0.0\nbar v2.0.0" [] = [⟨"bar", "v2.0.0", "direct"⟩] ∧
    parse_pkgs_go_mod "require foo v1.0.0\nbar v2.0.0\n)\nbaz v3.0.0" [] =
      [⟨"bar", "v2.0.0", "direct"⟩] :=
  ⟨by decide, fun ig rest => rfl, by decide, by decide⟩
